import Mathlib

/-!
Shallow embedding of the mqtt-sandbox-robot simulator core.

The numeric code runs on JS numbers with Math.cos / Math.sin / Math.PI.
We embed the arithmetic over an arbitrary field K and pass the trigonometric
primitives (and the constant pi) as an explicit record of operations
(`TrigOps`), exactly as the code calls out to the Math library.  Algebraic
facts about the trig functions that a claim needs (such as the Pythagorean
identity at the current heading) appear as explicit hypotheses.

Sources embedded:
  * src/robot.js           — class Robot (pose, parameters, trajectory,
                             calculateControl, getExtensionPoint, ...)
  * src/unnamed/part_000   — clamp, desired target state, setDesired,
                             setRobotPoseFromExtension, animateFrame
                             (fixed-step accumulator loop).

DOM / canvas / chart / MQTT-transport side effects are presentation plumbing
outside the embedding; only the state they read and write (robot, desired
target, accumulator, logs) is modelled.
-/

namespace RobotSim

/-- The trigonometric primitives the code obtains from the JS Math object:
`Math.cos`, `Math.sin` and the constant `Math.PI`. -/
structure TrigOps (K : Type) where
  cos : K → K
  sin : K → K
  pi : K

/-- State of `class Robot` (src/robot.js, constructor lines 2–13):
pose `(x, y, theta)`, parameters `l`, `k`, `dt`, the trajectory buffer and
its capping constants `maxTrajectoryPoints` / `_trajTrimChunk`. -/
structure Robot (K : Type) where
  x : K
  y : K
  theta : K
  l : K
  k : K
  dt : K
  trajectory : List (K × K)
  maxTrajectoryPoints : Nat
  trajTrimChunk : Nat

/-- The record `{ ex, ey, V, W }` returned by `calculateControl`. -/
structure ControlOutput (K : Type) where
  ex : K
  ey : K
  V : K
  W : K

variable {K : Type}

/-- `new Robot()` (src/robot.js lines 2–13): x = 0, y = 0, theta = 0,
l = 50, k = 0.1, dt = 0.05, empty trajectory, maxTrajectoryPoints = 5000,
_trajTrimChunk = 500. -/
def Robot.new [Field K] : Robot K :=
  ⟨0, 0, 0, 50, 1 / 10, 1 / 20, [], 5000, 500⟩

/-- `Robot.getExtensionPoint` (src/robot.js lines 77–82):
`(x + l·cos θ, y + l·sin θ)`, recomputed on demand.  Stated over the raw
arithmetic operations so that the same code also runs over the
finiteness-tracking carrier used for the NaN-propagation claims. -/
def Robot.getExtensionPoint [Add K] [Mul K] (T : TrigOps K) (r : Robot K) :
    K × K :=
  (r.x + r.l * T.cos r.theta, r.y + r.l * T.sin r.theta)

/-- `Robot.setInitialConditions` (src/robot.js lines 15–21): set the pose,
converting the heading from degrees to radians via `theta * Math.PI / 180`,
then reset the trajectory to a single sample at the extension point. -/
def Robot.setInitialConditions [Field K] (T : TrigOps K) (r : Robot K)
    (x y theta : K) : Robot K :=
  let r1 : Robot K := { r with x := x, y := y, theta := theta * T.pi / 180 }
  let ext := Robot.getExtensionPoint T r1
  { r1 with trajectory := [ext] }

/-- `Robot.calculateControl` (src/robot.js lines 27–67), line by line:
control point, error, proportional correction, Jacobian matrix `A`,
its determinant and inverse, the commands `V`, `W`, the heading-first
Euler pose update, the trajectory push and block trim, and the returned
record `{ ex, ey, V, W }`.  Returns the updated robot paired with the
returned record. -/
def Robot.calculateControl [Add K] [Sub K] [Neg K] [Mul K] [Div K]
    (T : TrigOps K) (r : Robot K)
    (xs ys : K) : Robot K × ControlOutput K :=
  let x_ext := r.x + r.l * T.cos r.theta
  let y_ext := r.y + r.l * T.sin r.theta
  let ex := x_ext - xs
  let ey := y_ext - ys
  let ux := -r.k * ex
  let uy := -r.k * ey
  let a00 := T.cos r.theta
  let a01 := -r.l * T.sin r.theta
  let a10 := T.sin r.theta
  let a11 := r.l * T.cos r.theta
  let detA := a00 * a11 - a01 * a10
  let inv00 := a11 / detA
  let inv01 := -a01 / detA
  let inv10 := -a10 / detA
  let inv11 := a00 / detA
  let V := inv00 * ux + inv01 * uy
  let W := inv10 * ux + inv11 * uy
  let theta1 := r.theta + W * r.dt
  let x1 := r.x + V * T.cos theta1 * r.dt
  let y1 := r.y + V * T.sin theta1 * r.dt
  let r1 : Robot K := { r with x := x1, y := y1, theta := theta1 }
  let extNow := Robot.getExtensionPoint T r1
  let pushed := r1.trajectory ++ [extNow]
  let traj :=
    if pushed.length > r1.maxTrajectoryPoints + r1.trajTrimChunk then
      pushed.drop (pushed.length - r1.maxTrajectoryPoints)
    else pushed
  ({ r1 with trajectory := traj }, ⟨ex, ey, V, W⟩)

/-- The closed-form application of the inverse Jacobian, written from the
spec's formula (section 4.1, item 4): `J = [[cosθ, −l·sinθ],[sinθ, l·cosθ]]`
has determinant `l` and inverse `(1/l)·[[l·cosθ, l·sinθ],[−sinθ, cosθ]]`;
applying it to `(u1, u2)` gives the pair below. -/
def jacobianInvApply [Field K] (c s l u1 u2 : K) : K × K :=
  ((l * c * u1 + l * s * u2) / l, (-s * u1 + c * u2) / l)

/-! ### Finiteness-tracking carrier

JS numbers are IEEE doubles; the claims about NaN/Infinity behaviour concern
only whether a value is finite.  `FVal K` tracks that: `fin v` is a finite
number with exact value `v`, `nonfin` is any non-finite double (NaN or ±Inf).
The operations below are the finiteness abstraction of the JS operators on
the paths the claims exercise: an operation with a non-finite operand is
non-finite (NaN propagates; Inf ± Inf, Inf·0, Inf/Inf, x/NaN are all
non-finite), finite operands give the exact finite result, and division by
(exact) zero is non-finite (JS x/0 = ±Inf or NaN). -/
inductive FVal (K : Type) where
  | fin : K → FVal K
  | nonfin : FVal K
deriving DecidableEq

/-- Finiteness abstraction of JS `+`. -/
def FVal.add [Add K] : FVal K → FVal K → FVal K
  | FVal.fin a, FVal.fin b => FVal.fin (a + b)
  | _, _ => FVal.nonfin

/-- Finiteness abstraction of JS binary `-`. -/
def FVal.sub [Sub K] : FVal K → FVal K → FVal K
  | FVal.fin a, FVal.fin b => FVal.fin (a - b)
  | _, _ => FVal.nonfin

/-- Finiteness abstraction of JS `*`. -/
def FVal.mul [Mul K] : FVal K → FVal K → FVal K
  | FVal.fin a, FVal.fin b => FVal.fin (a * b)
  | _, _ => FVal.nonfin

/-- Finiteness abstraction of JS `/`: division by exact zero is non-finite. -/
def FVal.div [Div K] [Zero K] [DecidableEq K] : FVal K → FVal K → FVal K
  | FVal.fin a, FVal.fin b =>
      if b = 0 then FVal.nonfin else FVal.fin (a / b)
  | _, _ => FVal.nonfin

/-- `Number.isFinite`. -/
def FVal.isFinite : FVal K → Bool
  | FVal.fin _ => true
  | FVal.nonfin => false

instance [Add K] : Add (FVal K) :=
  ⟨FVal.add⟩

instance [Sub K] : Sub (FVal K) :=
  ⟨FVal.sub⟩

instance [Mul K] : Mul (FVal K) :=
  ⟨FVal.mul⟩

instance [Neg K] : Neg (FVal K) :=
  ⟨fun v => match v with
    | FVal.fin a => FVal.fin (-a)
    | FVal.nonfin => FVal.nonfin⟩

instance [Div K] [Zero K] [DecidableEq K] : Div (FVal K) :=
  ⟨FVal.div⟩

/-- Lift trig primitives to the finiteness carrier: `Math.cos` / `Math.sin`
of a non-finite argument are NaN, of a finite argument the exact value;
`Math.PI` is finite. -/
def TrigOps.toFVal (T : TrigOps K) : TrigOps (FVal K) :=
  ⟨fun v => match v with
      | FVal.fin a => FVal.fin (T.cos a)
      | FVal.nonfin => FVal.nonfin,
    fun v => match v with
      | FVal.fin a => FVal.fin (T.sin a)
      | FVal.nonfin => FVal.nonfin,
    FVal.fin T.pi⟩

/-! ### Driver-side state (src/unnamed/part_000)

Canvas/chart/DOM side effects are rendering collaborators and are outside
the embedding; only the simulation state they share (robot, desired target,
accumulator, logs) is modelled. -/

/-- Workspace bound (part_000 line 36). -/
def SIM_X_MIN [Field K] : K :=
  -500

/-- Workspace bound (part_000 line 36). -/
def SIM_X_MAX [Field K] : K :=
  500

/-- Workspace bound (part_000 line 37). -/
def SIM_Y_MIN [Field K] : K :=
  -300

/-- Workspace bound (part_000 line 37). -/
def SIM_Y_MAX [Field K] : K :=
  300

/-- `MAX_STEPS_PER_FRAME` (part_000 line 54). -/
def MAX_STEPS_PER_FRAME : Nat :=
  5

/-- `clamp(v, min, max) = Math.max(min, Math.min(max, v))`
(part_000 lines 316–318). -/
def clamp [LinearOrder K] (v lo hi : K) : K :=
  max lo (min hi v)

/-- The value of the `desired.source` field: `'manual' | 'mqtt'`
(part_000 line 307). -/
inductive TargetSource where
  | manual
  | mqtt
deriving DecidableEq

/-- The `desired` target record (part_000 lines 304–309).  The
`lastUpdateMs` wall-clock field is display bookkeeping and is outside the
embedding. -/
structure Desired (K : Type) where
  x : K
  y : K
  source : TargetSource
deriving DecidableEq

/-- `setDesired(x, y, origin = 'mqtt')` (part_000 lines 466–480):
reject MQTT-origin updates unless the active source is MQTT; reject
non-finite coordinates (`Number.isFinite` guard); otherwise clamp both
coordinates to the workspace bounds and store them.  The coordinates come
in on the finiteness-tracking carrier since the guard inspects
finiteness. -/
def setDesired [LinearOrderedField K] (d : Desired K) (x y : FVal K)
    (origin : TargetSource) : Desired K :=
  if origin = TargetSource.mqtt ∧ d.source ≠ TargetSource.mqtt then d
  else if FVal.isFinite x = false ∨ FVal.isFinite y = false then d
  else
    match x, y with
    | FVal.fin xv, FVal.fin yv =>
        { d with
          x := clamp xv SIM_X_MIN SIM_X_MAX
          y := clamp yv SIM_Y_MIN SIM_Y_MAX }
    | _, _ => d

/-- `setRobotPoseFromExtension(xExt, yExt, thetaDeg)` (part_000 lines
482–487): convert the extension point to the centre pose using the current
`robot.l`, then call `setInitialConditions` with the centre and the same
heading in degrees. -/
def setRobotPoseFromExtension [Field K] (T : TrigOps K) (r : Robot K)
    (xExt yExt thetaDeg : K) : Robot K :=
  let th := thetaDeg * T.pi / 180
  let xCenter := xExt - r.l * T.cos th
  let yCenter := yExt - r.l * T.sin th
  Robot.setInitialConditions T r xCenter yCenter thetaDeg

/-- The simulation lifecycle state `'idle' | 'running' | 'paused'`
(part_000 line 47). -/
inductive SimState where
  | idle
  | running
  | paused
deriving DecidableEq

/-- One row of the session log appended per simulation step
(`doSimStep`, part_000 lines 985–1031). -/
structure StepRecord (K : Type) where
  t : K
  ex : K
  ey : K
  V : K
  W : K

/-- The driver's shared mutable state: lifecycle state, the wall-clock
timestamp of the previous animation callback, the fixed-step accumulator,
the cycle counter, the robot, the desired target and the session log
(part_000 lines 47–56, 303–309). -/
structure DriverState (K : Type) where
  simState : SimState
  lastTs : Option K
  accumulator : K
  cycleCount : Nat
  robot : Robot K
  desired : Desired K
  log : List (StepRecord K)

/-- `doSimStep()` (part_000 lines 985–1040): increment the cycle counter,
compute the step time `t = cycleCount·dt`, run
`robot.calculateControl(desired.x, desired.y)` and append the step record
to the session log.  The chart-window pushes and DOM text updates are
rendering collaborators outside the embedding. -/
def doSimStep [Field K] (T : TrigOps K) (st : DriverState K) :
    DriverState K :=
  let cc := st.cycleCount + 1
  let t := (cc : K) * st.robot.dt
  let res := Robot.calculateControl T st.robot st.desired.x st.desired.y
  { st with
    cycleCount := cc
    robot := res.1
    log := st.log ++ [⟨t, res.2.ex, res.2.ey, res.2.V, res.2.W⟩] }

/-- The catch-up loop of `animateFrame` (part_000 lines 970–975):
`while (accumulator >= robot.dt && steps < MAX_STEPS_PER_FRAME)` run
`doSimStep()`, subtract `robot.dt` from the accumulator and count the step.
`fuel` is the number of loop iterations still allowed,
i.e. `MAX_STEPS_PER_FRAME - steps`; `doSimStep` leaves `robot.dt`
unchanged, so subtracting the pre-step `robot.dt` is the same subtraction
the code performs after the step.  Returns the final accumulator, the
final state and the number of steps executed. -/
def stepLoop [LinearOrderedField K] (T : TrigOps K) :
    Nat → K → DriverState K → K × DriverState K × Nat
  | 0, acc, st => (acc, st, 0)
  | Nat.succ f, acc, st =>
      if st.robot.dt ≤ acc then
        let st1 := doSimStep T st
        let r := stepLoop T f (acc - st.robot.dt) st1
        (r.1, r.2.1, r.2.2 + 1)
      else (acc, st, 0)

/-- `animateFrame(ts)` (part_000 lines 953–982): do nothing unless
`running`; on the first callback only record the timestamp; otherwise
compute the wall-clock delta in seconds, clamp it to the 0.25 s ceiling,
add it to the accumulator and run the bounded catch-up loop.  The
`drawAllElements` / chart-throttle calls are rendering collaborators and
the `requestAnimationFrame` re-arm is the scheduler, both outside the
embedding.  Returns the new state and the number of steps executed this
frame. -/
def animateFrame [LinearOrderedField K] (T : TrigOps K) (ts : K)
    (st : DriverState K) : DriverState K × Nat :=
  if st.simState ≠ SimState.running then (st, 0)
  else
    match st.lastTs with
    | none => ({ st with lastTs := some ts }, 0)
    | some t0 =>
        let dtWall0 := (ts - t0) / 1000
        let dtWall := if dtWall0 > 1 / 4 then (1 : K) / 4 else dtWall0
        let acc0 := st.accumulator + dtWall
        let r := stepLoop T MAX_STEPS_PER_FRAME acc0
          { st with lastTs := some ts }
        ({ r.2.1 with accumulator := r.1 }, r.2.2)

/-- Iterate `calculateControl` over a list of targets: one simulation step
per served target, as the driver does. -/
def runTargets [Add K] [Sub K] [Neg K] [Mul K] [Div K] (T : TrigOps K)
    (r : Robot K) : List (K × K) → Robot K
  | [] => r
  | t :: ts => runTargets T (Robot.calculateControl T r t.1 t.2).1 ts

/-- The trajectory-capacity bound: the buffer never exceeds the configured
maximum plus the trim batch size. -/
def trajWithinCap (r : Robot K) : Prop :=
  r.trajectory.length ≤ r.maxTrajectoryPoints + r.trajTrimChunk

/-- The squared distance from the control (extension) point to the target —
the square of the tracking distance the convergence property is about. -/
def errSq [Field K] (T : TrigOps K) (r : Robot K) (xs ys : K) : K :=
  ((Robot.getExtensionPoint T r).1 - xs) ^ 2 +
    ((Robot.getExtensionPoint T r).2 - ys) ^ 2

/-- Iterate `calculateControl` n times with a fixed target, as the driver
does while running with an unchanged desired target. -/
def stepN [Add K] [Sub K] [Neg K] [Mul K] [Div K] (T : TrigOps K)
    (xs ys : K) : Nat → Robot K → Robot K
  | 0, r => r
  | Nat.succ n, r => stepN T xs ys n (Robot.calculateControl T r xs ys).1

/-! ### Concrete instances used by the witness theorems -/

/-- A concrete, fully computable trig assignment over ℚ used by the witness
theorems: cos = 1, sin = 0 everywhere (it satisfies the Pythagorean identity
at every point). -/
def trivTrig : TrigOps ℚ :=
  ⟨fun _ => 1, fun _ => 0, 0⟩

/-- The default-constructed robot over ℚ, used by the witness theorems. -/
def rq0 : Robot ℚ :=
  Robot.new

/-- The default-constructed robot over ℚ with a non-empty trajectory
buffer, used by the determinism witness. -/
def rq1 : Robot ℚ :=
  { Robot.new with trajectory := [(0, 0)] }

/-- A desired-target record in manual mode. -/
def dManual : Desired ℚ :=
  ⟨100, 100, TargetSource.manual⟩

/-- A desired-target record in MQTT mode. -/
def dMqtt : Desired ℚ :=
  ⟨100, 100, TargetSource.mqtt⟩

/-- A robot on the finiteness-tracking carrier with the singular
configuration l = 0 (all other fields the defaults), used by the
singular-case witness. -/
def rqF0 : Robot (FVal ℚ) :=
  ⟨FVal.fin 0, FVal.fin 0, FVal.fin 0, FVal.fin 0, FVal.fin (1 / 10),
    FVal.fin (1 / 20), [], 5000, 500⟩

/-- A concrete running driver state over ℚ: previous callback at 0 ms,
empty accumulator, default robot, manual target (100, 100). -/
def stQ : DriverState ℚ :=
  ⟨SimState.running, some 0, 0, 0, rq0, dManual, []⟩

end RobotSim

namespace RobotSim

variable {K : Type}

/-- C1: one call of calculateControl computes the control point
`(x + l·cosθ, y + l·sinθ)`, returns `ex`, `ey` as its offset from the target,
and returns `(V, W)` equal to the inverse of the Jacobian
`J = [[cosθ, −l·sinθ],[sinθ, l·cosθ]]` applied to `(ux, uy) = (−k·ex, −k·ey)`,
the determinant used in the inversion being `detJ = l` (given the Pythagorean
identity for the trig primitives at the current heading, and `l ≠ 0` so that
the inverse exists). -/
theorem calculateControl_control_law [Field K] (T : TrigOps K) (r : Robot K)
    (xs ys : K)
    (hcs : T.cos r.theta * T.cos r.theta + T.sin r.theta * T.sin r.theta = 1)
    (hl : r.l ≠ 0) :
    (Robot.calculateControl T r xs ys).2.ex =
      (r.x + r.l * T.cos r.theta) - xs ∧
    (Robot.calculateControl T r xs ys).2.ey =
      (r.y + r.l * T.sin r.theta) - ys ∧
    T.cos r.theta * (r.l * T.cos r.theta) -
      (-r.l * T.sin r.theta) * T.sin r.theta = r.l ∧
    ((Robot.calculateControl T r xs ys).2.V,
      (Robot.calculateControl T r xs ys).2.W) =
      jacobianInvApply (T.cos r.theta) (T.sin r.theta) r.l
        (-r.k * (Robot.calculateControl T r xs ys).2.ex)
        (-r.k * (Robot.calculateControl T r xs ys).2.ey) := by
  have hdet : T.cos r.theta * (r.l * T.cos r.theta) -
      (-r.l * T.sin r.theta) * T.sin r.theta = r.l := by
    linear_combination r.l * hcs
  refine ⟨rfl, rfl, hdet, ?_⟩
  simp only [Robot.calculateControl, jacobianInvApply, Prod.mk.injEq]
  rw [hdet]
  constructor
  · field_simp
    try ring
  · field_simp
    try ring

/-- C1 witness: the theorem applied at the default robot and the trivial
trig assignment cos = 1, sin = 0 over ℚ. -/
theorem calculateControl_control_law_witness :
    (Robot.calculateControl trivTrig rq0 100 100).2.ex =
      (rq0.x + rq0.l * trivTrig.cos rq0.theta) - 100 ∧
    (Robot.calculateControl trivTrig rq0 100 100).2.ey =
      (rq0.y + rq0.l * trivTrig.sin rq0.theta) - 100 ∧
    trivTrig.cos rq0.theta * (rq0.l * trivTrig.cos rq0.theta) -
      (-rq0.l * trivTrig.sin rq0.theta) * trivTrig.sin rq0.theta = rq0.l ∧
    ((Robot.calculateControl trivTrig rq0 100 100).2.V,
      (Robot.calculateControl trivTrig rq0 100 100).2.W) =
      jacobianInvApply (trivTrig.cos rq0.theta) (trivTrig.sin rq0.theta) rq0.l
        (-rq0.k * (Robot.calculateControl trivTrig rq0 100 100).2.ex)
        (-rq0.k * (Robot.calculateControl trivTrig rq0 100 100).2.ey) :=
  calculateControl_control_law trivTrig rq0 100 100
    (by norm_num [trivTrig]) (by norm_num [rq0, Robot.new])

/-- C2: calculateControl integrates the pose heading-first: the new heading
is `θ + W·dt`, and the position update uses the updated heading:
`x + V·cos(θ + W·dt)·dt` and `y + V·sin(θ + W·dt)·dt` (for every trig
assignment, so the pre-step heading cannot be the one used). -/
theorem calculateControl_heading_first [Field K] (T : TrigOps K) (r : Robot K)
    (xs ys : K) :
    let res := Robot.calculateControl T r xs ys
    res.1.theta = r.theta + res.2.W * r.dt ∧
    res.1.x = r.x + res.2.V * T.cos (r.theta + res.2.W * r.dt) * r.dt ∧
    res.1.y = r.y + res.2.V * T.sin (r.theta + res.2.W * r.dt) * r.dt := by
  refine ⟨rfl, rfl, rfl⟩

/-- C9: calculateControl is deterministic and reads only the pose, the
parameters and the target: two robots agreeing on `(x, y, theta, l, k, dt)`
(whatever their trajectory buffers and capping constants) produce equal
`{ex, ey, V, W}` records and equal next poses under the same target. -/
theorem calculateControl_deterministic [Field K] (T : TrigOps K)
    (r1 r2 : Robot K) (xs ys : K)
    (hx : r1.x = r2.x) (hy : r1.y = r2.y) (hth : r1.theta = r2.theta)
    (hl : r1.l = r2.l) (hk : r1.k = r2.k) (hdt : r1.dt = r2.dt) :
    (Robot.calculateControl T r1 xs ys).2 =
      (Robot.calculateControl T r2 xs ys).2 ∧
    (Robot.calculateControl T r1 xs ys).1.x =
      (Robot.calculateControl T r2 xs ys).1.x ∧
    (Robot.calculateControl T r1 xs ys).1.y =
      (Robot.calculateControl T r2 xs ys).1.y ∧
    (Robot.calculateControl T r1 xs ys).1.theta =
      (Robot.calculateControl T r2 xs ys).1.theta := by
  simp [Robot.calculateControl, hx, hy, hth, hl, hk, hdt]

/-- C9 witness: two default robots, one with a non-empty trajectory buffer,
agree on all step outputs. -/
theorem calculateControl_deterministic_witness :
    (Robot.calculateControl trivTrig rq0 100 100).2 =
      (Robot.calculateControl trivTrig rq1 100 100).2 ∧
    (Robot.calculateControl trivTrig rq0 100 100).1.x =
      (Robot.calculateControl trivTrig rq1 100 100).1.x ∧
    (Robot.calculateControl trivTrig rq0 100 100).1.y =
      (Robot.calculateControl trivTrig rq1 100 100).1.y ∧
    (Robot.calculateControl trivTrig rq0 100 100).1.theta =
      (Robot.calculateControl trivTrig rq1 100 100).1.theta :=
  calculateControl_deterministic trivTrig rq0 rq1 100 100
    rfl rfl rfl rfl rfl rfl

/-- C10: setting the pose from an extension point and reading the
extension point back is the identity in exact arithmetic:
`setRobotPoseFromExtension` converts `(xExt, yExt, thetaDeg)` to a centre
pose with the same heading, and `getExtensionPoint` recomputes exactly
`(xExt, yExt)`. -/
theorem setRobotPoseFromExtension_roundtrip [Field K] (T : TrigOps K)
    (r : Robot K) (xExt yExt thetaDeg : K) :
    Robot.getExtensionPoint T
      (setRobotPoseFromExtension T r xExt yExt thetaDeg) = (xExt, yExt) := by
  simp only [setRobotPoseFromExtension, Robot.setInitialConditions,
    Robot.getExtensionPoint, Prod.mk.injEq]
  constructor <;> ring

/-- C7: the target authorization gate of setDesired.  An MQTT-origin update
is rejected (state unchanged) whenever the active source is manual; when
the active source is MQTT and both coordinates are finite, the update is
accepted and the target becomes the coordinates clamped to the workspace
rectangle. -/
theorem setDesired_gate [LinearOrderedField K] (d : Desired K) :
    (d.source = TargetSource.manual →
      ∀ x y : FVal K, setDesired d x y TargetSource.mqtt = d) ∧
    (d.source = TargetSource.mqtt →
      ∀ xv yv : K,
        setDesired d (FVal.fin xv) (FVal.fin yv) TargetSource.mqtt =
          { d with
            x := clamp xv SIM_X_MIN SIM_X_MAX
            y := clamp yv SIM_Y_MIN SIM_Y_MAX }) := by
  constructor
  · intro hsrc x y
    simp [setDesired, hsrc]
  · intro hsrc xv yv
    simp [setDesired, hsrc, FVal.isFinite]

/-- C7 witness: with the workspace ±500 × ±300, a manual-mode driver drops
the MQTT update (900, 900), and an MQTT-mode driver accepts (900, −900)
as the clamped target (500, −300). -/
theorem setDesired_gate_witness :
    setDesired dManual (FVal.fin (900 : ℚ)) (FVal.fin 900)
      TargetSource.mqtt = dManual ∧
    setDesired dMqtt (FVal.fin (900 : ℚ)) (FVal.fin (-900))
      TargetSource.mqtt = ⟨500, -300, TargetSource.mqtt⟩ := by
  constructor
  · exact (setDesired_gate dManual).1 rfl _ _
  · rw [(setDesired_gate dMqtt).2 rfl 900 (-900)]
    norm_num [clamp, SIM_X_MIN, SIM_X_MAX, SIM_Y_MIN, SIM_Y_MAX, dMqtt]

/-! ### Propagation lemmas for the finiteness-tracking carrier -/

/-- A non-finite left addend absorbs. -/
theorem FVal.nonfin_add [Add K] (b : FVal K) :
    (FVal.nonfin + b : FVal K) = FVal.nonfin := by
  cases b <;> rfl

/-- A non-finite right addend absorbs. -/
theorem FVal.add_nonfin [Add K] (a : FVal K) :
    (a + FVal.nonfin : FVal K) = FVal.nonfin := by
  cases a <;> rfl

/-- A non-finite minuend absorbs. -/
theorem FVal.nonfin_sub [Sub K] (b : FVal K) :
    (FVal.nonfin - b : FVal K) = FVal.nonfin := by
  cases b <;> rfl

/-- A non-finite subtrahend absorbs. -/
theorem FVal.sub_nonfin [Sub K] (a : FVal K) :
    (a - FVal.nonfin : FVal K) = FVal.nonfin := by
  cases a <;> rfl

/-- A non-finite left factor absorbs. -/
theorem FVal.nonfin_mul [Mul K] (b : FVal K) :
    (FVal.nonfin * b : FVal K) = FVal.nonfin := by
  cases b <;> rfl

/-- A non-finite right factor absorbs. -/
theorem FVal.mul_nonfin [Mul K] (a : FVal K) :
    (a * FVal.nonfin : FVal K) = FVal.nonfin := by
  cases a <;> rfl

/-- A non-finite numerator absorbs. -/
theorem FVal.nonfin_div [Div K] [Zero K] [DecidableEq K] (b : FVal K) :
    (FVal.nonfin / b : FVal K) = FVal.nonfin := by
  cases b <;> rfl

/-- A non-finite denominator absorbs. -/
theorem FVal.div_nonfin [Div K] [Zero K] [DecidableEq K] (a : FVal K) :
    (a / FVal.nonfin : FVal K) = FVal.nonfin := by
  cases a <;> rfl

/-- Finite addition computes exactly. -/
theorem FVal.fin_add_fin [Add K] (a b : K) :
    (FVal.fin a + FVal.fin b : FVal K) = FVal.fin (a + b) :=
  rfl

/-- Finite subtraction computes exactly. -/
theorem FVal.fin_sub_fin [Sub K] (a b : K) :
    (FVal.fin a - FVal.fin b : FVal K) = FVal.fin (a - b) :=
  rfl

/-- Finite multiplication computes exactly. -/
theorem FVal.fin_mul_fin [Mul K] (a b : K) :
    (FVal.fin a * FVal.fin b : FVal K) = FVal.fin (a * b) :=
  rfl

/-- Negation of a finite value computes exactly. -/
theorem FVal.neg_fin [Neg K] (a : K) :
    (-FVal.fin a : FVal K) = FVal.fin (-a) :=
  rfl

/-- Finite division computes exactly except on a zero denominator, which
is non-finite. -/
theorem FVal.fin_div_fin [Div K] [Zero K] [DecidableEq K] (a b : K) :
    (FVal.fin a / FVal.fin b : FVal K) =
      if b = 0 then FVal.nonfin else FVal.fin (a / b) :=
  rfl

/-- C4: with the singular control-point offset l = 0, calculateControl
returns non-finite V and W for every pose and target: the determinant of
the Jacobian is exactly zero (or non-finite), the division by it in the
inversion is non-finite, and the non-finite values surface in the returned
V and W rather than being swallowed. -/
theorem calculateControl_singular [Field K] [DecidableEq K]
    (T : TrigOps (FVal K)) (r : Robot (FVal K)) (xs ys : FVal K)
    (hl : r.l = FVal.fin 0) :
    (Robot.calculateControl T r xs ys).2.V = FVal.nonfin ∧
    (Robot.calculateControl T r xs ys).2.W = FVal.nonfin := by
  obtain ⟨x, y, th, l, k, dt, traj, mx, ch⟩ := r
  simp only at hl
  subst hl
  cases hc : T.cos th <;> cases hs : T.sin th <;>
    simp [Robot.calculateControl, hc, hs, FVal.neg_fin, FVal.fin_mul_fin,
      FVal.fin_add_fin, FVal.fin_sub_fin, FVal.fin_div_fin,
      FVal.nonfin_add, FVal.add_nonfin, FVal.nonfin_sub, FVal.sub_nonfin,
      FVal.nonfin_mul, FVal.mul_nonfin, FVal.nonfin_div, FVal.div_nonfin,
      mul_zero, zero_mul, neg_zero, sub_self, sub_zero]

/-- C4 witness: the singular robot with l = 0 over the finiteness carrier
yields non-finite V and W at the target (100, 100). -/
theorem calculateControl_singular_witness :
    rqF0.l = FVal.fin 0 ∧
    (Robot.calculateControl trivTrig.toFVal rqF0
      (FVal.fin 100) (FVal.fin 100)).2.V = FVal.nonfin ∧
    (Robot.calculateControl trivTrig.toFVal rqF0
      (FVal.fin 100) (FVal.fin 100)).2.W = FVal.nonfin :=
  ⟨rfl, calculateControl_singular trivTrig.toFVal rqF0
    (FVal.fin 100) (FVal.fin 100) rfl⟩

/-- C8 (amended): a non-finite value reaching the step arithmetic
propagates as a non-finite result instead of raising — with a non-finite
target coordinate injected directly into calculateControl, the returned
error, V, W and the whole next pose are non-finite; but a non-finite
target supplied to the target update `setDesired` is rejected by its
`Number.isFinite` guard with the state unchanged (whatever the origin
tag), so a non-finite target never flows from a target update into
subsequent steps. -/
theorem nonfinite_propagation [LinearOrderedField K] [DecidableEq K]
    (T : TrigOps (FVal K)) (r : Robot (FVal K)) (ys : FVal K)
    (d : Desired K) :
    ((Robot.calculateControl T r FVal.nonfin ys).2.ex = FVal.nonfin ∧
      (Robot.calculateControl T r FVal.nonfin ys).2.V = FVal.nonfin ∧
      (Robot.calculateControl T r FVal.nonfin ys).2.W = FVal.nonfin ∧
      (Robot.calculateControl T r FVal.nonfin ys).1.x = FVal.nonfin ∧
      (Robot.calculateControl T r FVal.nonfin ys).1.y = FVal.nonfin ∧
      (Robot.calculateControl T r FVal.nonfin ys).1.theta = FVal.nonfin) ∧
    (∀ v : FVal K, ∀ origin : TargetSource,
      setDesired d FVal.nonfin v origin = d ∧
      setDesired d v FVal.nonfin origin = d) := by
  constructor
  · simp [Robot.calculateControl, FVal.nonfin_add, FVal.add_nonfin,
      FVal.nonfin_sub, FVal.sub_nonfin, FVal.nonfin_mul, FVal.mul_nonfin,
      FVal.nonfin_div, FVal.div_nonfin]
  · intro v origin
    constructor <;>
      · simp only [setDesired, FVal.isFinite]
        split <;> simp

/-- C8 counterexample for the claim as stated: the concrete non-finite
target update `setDesired(NaN, 0, 'mqtt')` against an MQTT-mode driver is
dropped with the target state unchanged — it does not flow as NaN into
subsequent step computations, because `setDesired` validates finiteness
before storing. -/
theorem setDesired_drops_nonfinite :
    setDesired dMqtt FVal.nonfin (FVal.fin 0) TargetSource.mqtt = dMqtt ∧
    dMqtt.x = 100 ∧ dMqtt.y = 100 := by
  refine ⟨?_, rfl, rfl⟩
  rfl

/-! ### Trajectory capping (C6) -/

/-- calculateControl leaves `maxTrajectoryPoints` unchanged. -/
theorem calculateControl_maxPoints [Add K] [Sub K] [Neg K] [Mul K] [Div K]
    (T : TrigOps K) (r : Robot K) (xs ys : K) :
    (Robot.calculateControl T r xs ys).1.maxTrajectoryPoints =
      r.maxTrajectoryPoints :=
  rfl

/-- calculateControl leaves `_trajTrimChunk` unchanged. -/
theorem calculateControl_trimChunk [Add K] [Sub K] [Neg K] [Mul K] [Div K]
    (T : TrigOps K) (r : Robot K) (xs ys : K) :
    (Robot.calculateControl T r xs ys).1.trajTrimChunk = r.trajTrimChunk :=
  rfl

/-- The trajectory after a step: push the new extension point, then trim
from the front down to `maxTrajectoryPoints` retained points whenever the
buffer exceeds `maxTrajectoryPoints + _trajTrimChunk` (the `splice(0,
length - maxTrajectoryPoints)` of src/robot.js lines 60–63). -/
theorem calculateControl_trajectory_eq [Add K] [Sub K] [Neg K] [Mul K]
    [Div K] (T : TrigOps K) (r : Robot K) (xs ys : K) :
    (Robot.calculateControl T r xs ys).1.trajectory =
      if (r.trajectory ++
            [Robot.getExtensionPoint T
              (Robot.calculateControl T r xs ys).1]).length >
          r.maxTrajectoryPoints + r.trajTrimChunk then
        (r.trajectory ++
            [Robot.getExtensionPoint T
              (Robot.calculateControl T r xs ys).1]).drop
          ((r.trajectory ++
            [Robot.getExtensionPoint T
              (Robot.calculateControl T r xs ys).1]).length -
            r.maxTrajectoryPoints)
      else
        r.trajectory ++
          [Robot.getExtensionPoint T (Robot.calculateControl T r xs ys).1] :=
  rfl

/-- One step preserves the trajectory-capacity bound. -/
theorem trajWithinCap_step [Add K] [Sub K] [Neg K] [Mul K] [Div K]
    (T : TrigOps K) (r : Robot K) (xs ys : K) (h : trajWithinCap r) :
    trajWithinCap (Robot.calculateControl T r xs ys).1 := by
  unfold trajWithinCap at h ⊢
  rw [calculateControl_maxPoints, calculateControl_trimChunk,
    calculateControl_trajectory_eq]
  split
  · rw [List.length_drop]
    omega
  · rename_i hle
    simp only [List.length_append, List.length_singleton] at hle ⊢
    omega

/-- Any run of steps preserves the trajectory-capacity bound. -/
theorem runTargets_withinCap [Add K] [Sub K] [Neg K] [Mul K] [Div K]
    (T : TrigOps K) (r : Robot K) (h : trajWithinCap r)
    (tgts : List (K × K)) : trajWithinCap (runTargets T r tgts) := by
  induction tgts generalizing r with
  | nil => exact h
  | cons t ts ih =>
      exact ih _ (trajWithinCap_step T r t.1 t.2 h)

/-- C6: for every sequence of steps the trajectory buffer's length after
each step stays at most `maxTrajectoryPoints + _trajTrimChunk`; the buffer
after a step is a suffix of the old buffer with the new point appended
(the retained points are the most recent ones in original order); and
whenever a trim occurs, exactly the most recent `maxTrajectoryPoints`
points are retained. -/
theorem trajectory_capping [Add K] [Sub K] [Neg K] [Mul K] [Div K]
    (T : TrigOps K) (r : Robot K) (xs ys : K) (hinv : trajWithinCap r) :
    trajWithinCap (Robot.calculateControl T r xs ys).1 ∧
    List.IsSuffix (Robot.calculateControl T r xs ys).1.trajectory
      (r.trajectory ++
        [Robot.getExtensionPoint T (Robot.calculateControl T r xs ys).1]) ∧
    ((r.trajectory ++
        [Robot.getExtensionPoint T
          (Robot.calculateControl T r xs ys).1]).length >
        r.maxTrajectoryPoints + r.trajTrimChunk →
      (Robot.calculateControl T r xs ys).1.trajectory =
        (r.trajectory ++
          [Robot.getExtensionPoint T
            (Robot.calculateControl T r xs ys).1]).drop
          (r.trajectory.length + 1 - r.maxTrajectoryPoints) ∧
      (Robot.calculateControl T r xs ys).1.trajectory.length =
        r.maxTrajectoryPoints) ∧
    (∀ tgts : List (K × K), trajWithinCap (runTargets T r tgts)) := by
  refine ⟨trajWithinCap_step T r xs ys hinv, ?_, ?_, runTargets_withinCap T r hinv⟩
  · rw [calculateControl_trajectory_eq]
    split
    · exact List.drop_suffix _ _
    · exact List.suffix_refl _
  · intro hgt
    rw [calculateControl_trajectory_eq, if_pos hgt]
    constructor
    · simp only [List.length_append, List.length_singleton]
    · rw [List.length_drop]
      simp only [List.length_append, List.length_singleton] at hgt ⊢
      omega

/-- C6 witness: the theorem applied to the default robot (empty buffer,
cap 5000, batch 500) at the target (100, 100). -/
theorem trajectory_capping_witness :
    trajWithinCap (Robot.calculateControl trivTrig rq0 100 100).1 ∧
    List.IsSuffix (Robot.calculateControl trivTrig rq0 100 100).1.trajectory
      (rq0.trajectory ++
        [Robot.getExtensionPoint trivTrig
          (Robot.calculateControl trivTrig rq0 100 100).1]) ∧
    ((rq0.trajectory ++
        [Robot.getExtensionPoint trivTrig
          (Robot.calculateControl trivTrig rq0 100 100).1]).length >
        rq0.maxTrajectoryPoints + rq0.trajTrimChunk →
      (Robot.calculateControl trivTrig rq0 100 100).1.trajectory =
        (rq0.trajectory ++
          [Robot.getExtensionPoint trivTrig
            (Robot.calculateControl trivTrig rq0 100 100).1]).drop
          (rq0.trajectory.length + 1 - rq0.maxTrajectoryPoints) ∧
      (Robot.calculateControl trivTrig rq0 100 100).1.trajectory.length =
        rq0.maxTrajectoryPoints) ∧
    (∀ tgts : List (ℚ × ℚ),
      trajWithinCap (runTargets trivTrig rq0 tgts)) :=
  trajectory_capping trivTrig rq0 100 100
    (by simp [trajWithinCap, rq0, Robot.new])

/-! ### Fixed-step accumulator (C3) -/

/-- The JS clamp idiom `if (d > c) d = c` computes the minimum. -/
theorem ite_gt_eq_min [LinearOrder K] (x c : K) :
    (if x > c then c else x) = min x c := by
  rcases le_or_lt x c with h | h
  · rw [if_neg (not_lt.mpr h), min_eq_left h]
  · rw [if_pos h, min_eq_right h.le]

/-- `doSimStep` does not change the timestep parameter. -/
theorem doSimStep_dt [Field K] (T : TrigOps K) (st : DriverState K) :
    (doSimStep T st).robot.dt = st.robot.dt :=
  rfl

/-- The catch-up loop runs exactly `n` steps when the accumulator holds
exactly `n` timesteps, `n` within the per-frame cap. -/
theorem stepLoop_count [LinearOrderedField K] (T : TrigOps K) :
    ∀ (n fuel : Nat) (st : DriverState K) (acc : K),
      0 < st.robot.dt → n ≤ fuel → acc = (n : K) * st.robot.dt →
      (stepLoop T fuel acc st).2.2 = n := by
  intro n
  induction n with
  | zero =>
      intro fuel st acc hdt _ hacc
      cases fuel with
      | zero => rfl
      | succ f =>
          rw [stepLoop, if_neg]
          rw [hacc]
          push_cast
          simp only [zero_mul]
          exact not_le.mpr hdt
  | succ n ih =>
      intro fuel st acc hdt hle hacc
      cases fuel with
      | zero => omega
      | succ f =>
          have hcond : st.robot.dt ≤ acc := by
            rw [hacc]
            push_cast
            have hn0 : (0 : K) ≤ (n : K) := Nat.cast_nonneg n
            nlinarith
          rw [stepLoop, if_pos hcond]
          simp only
          rw [ih f (doSimStep T st) (acc - st.robot.dt)
            (by rw [doSimStep_dt]; exact hdt) (by omega) ?_]
          rw [doSimStep_dt, hacc]
          push_cast
          ring

/-- C3: while running, `animateFrame` clamps the wall-clock delta to the
0.25 s ceiling before accumulating — a callback whose delta exceeds the
ceiling behaves exactly like one whose delta is 0.25 s — and when the
clamped delta brings the accumulator to exactly `3·dt` (the cap being
`MAX_STEPS_PER_FRAME = 5 ≥ 3`), exactly 3 simulation steps are
executed. -/
theorem animateFrame_accumulator [LinearOrderedField K] (T : TrigOps K)
    (st : DriverState K) (ts t0 : K)
    (hrun : st.simState = SimState.running)
    (hlast : st.lastTs = some t0)
    (hdt : 0 < st.robot.dt)
    (hacc : st.accumulator + min ((ts - t0) / 1000) (1 / 4) =
      3 * st.robot.dt) :
    (∀ u a : K, a = st.accumulator + min ((u - t0) / 1000) (1 / 4) →
      (animateFrame T u st).2 =
        (stepLoop T MAX_STEPS_PER_FRAME a { st with lastTs := some u }).2.2 ∧
      (animateFrame T u st).1.accumulator =
        (stepLoop T MAX_STEPS_PER_FRAME a { st with lastTs := some u }).1 ∧
      (animateFrame T u st).1.robot =
        (stepLoop T MAX_STEPS_PER_FRAME a
          { st with lastTs := some u }).2.1.robot ∧
      (animateFrame T u st).1.log =
        (stepLoop T MAX_STEPS_PER_FRAME a
          { st with lastTs := some u }).2.1.log) ∧
    (animateFrame T ts st).2 = 3 := by
  constructor
  · intro u a ha
    subst ha
    simp only [animateFrame, hrun, hlast, ne_eq, not_true_eq_false,
      if_false]
    rw [ite_gt_eq_min]
    exact ⟨rfl, rfl, rfl, rfl⟩
  · simp only [animateFrame, hrun, hlast, ne_eq, not_true_eq_false,
      if_false]
    rw [ite_gt_eq_min]
    exact stepLoop_count T 3 MAX_STEPS_PER_FRAME _ _ hdt (by norm_num [MAX_STEPS_PER_FRAME])
      (by push_cast; rw [hacc])

/-- C3 witness: a running driver with empty accumulator, previous callback
at 0 ms and the default timestep dt = 0.05 s receives a callback at
150 ms: the delta is accumulated clamped and exactly 3 steps run. -/
theorem animateFrame_accumulator_witness :
    (∀ u a : ℚ, a = stQ.accumulator + min ((u - 0) / 1000) (1 / 4) →
      (animateFrame trivTrig u stQ).2 =
        (stepLoop trivTrig MAX_STEPS_PER_FRAME a
          { stQ with lastTs := some u }).2.2 ∧
      (animateFrame trivTrig u stQ).1.accumulator =
        (stepLoop trivTrig MAX_STEPS_PER_FRAME a
          { stQ with lastTs := some u }).1 ∧
      (animateFrame trivTrig u stQ).1.robot =
        (stepLoop trivTrig MAX_STEPS_PER_FRAME a
          { stQ with lastTs := some u }).2.1.robot ∧
      (animateFrame trivTrig u stQ).1.log =
        (stepLoop trivTrig MAX_STEPS_PER_FRAME a
          { stQ with lastTs := some u }).2.1.log) ∧
    (animateFrame trivTrig 150 stQ).2 = 3 :=
  animateFrame_accumulator trivTrig stQ 150 0 rfl rfl
    (by norm_num [stQ, rq0, Robot.new])
    (by norm_num [stQ, rq0, Robot.new, min_def])

/-! ### Convergence of the closed loop (C5) -/

set_option maxHeartbeats 4000000

-- core Stage A identity, free variables c s e1 e2 g sg, modulo c^2+s^2=1
/-- The exact one-step error transform in the body frame, as a polynomial
identity modulo the Pythagorean relation: rotating the new control-point
error into the pre-step body frame turns the step into
`p' = (199/200)p + a g` and `q' = (199/200)q + pq/2000000 + a sg`. -/
theorem stageA_core [LinearOrderedField K] (c s e1 e2 g sg : K)
    (h1 : c ^ 2 + s ^ 2 = 1) :
    (e1 - 50 * c + (50 - (c * e1 + s * e2) / 200)
        * (c * (1 + g) - s * (-(-s * e1 + c * e2) / 10000 + sg))) ^ 2
    + (e2 - 50 * s + (50 - (c * e1 + s * e2) / 200)
        * (s * (1 + g) + c * (-(-s * e1 + c * e2) / 10000 + sg))) ^ 2
    = (199 / 200 * (c * e1 + s * e2) + (50 - (c * e1 + s * e2) / 200) * g) ^ 2
    + (199 / 200 * (-s * e1 + c * e2)
        + (c * e1 + s * e2) * (-s * e1 + c * e2) / 2000000
        + (50 - (c * e1 + s * e2) / 200) * sg) ^ 2 := by
  linear_combination
    (2 * (199 / 200 * (c * e1 + s * e2) + (50 - (c * e1 + s * e2) / 200) * g)
        * ((50 - (c * e1 + s * e2) / 200) * (1 + g) - 50)
      + 2 * (199 / 200 * (-s * e1 + c * e2)
          + (c * e1 + s * e2) * (-s * e1 + c * e2) / 2000000
          + (50 - (c * e1 + s * e2) / 200) * sg)
        * ((50 - (c * e1 + s * e2) / 200)
          * (-(-s * e1 + c * e2) / 10000 + sg))
      + (c ^ 2 + s ^ 2 - 1) *
        (((50 - (c * e1 + s * e2) / 200) * (1 + g) - 50) ^ 2
          + ((50 - (c * e1 + s * e2) / 200)
            * (-(-s * e1 + c * e2) / 10000 + sg)) ^ 2)
      - ((e1 - 50 * c + (50 - (c * e1 + s * e2) / 200)
          * (c * (1 + g) - s * (-(-s * e1 + c * e2) / 10000 + sg))) ^ 2
        + (e2 - 50 * s + (50 - (c * e1 + s * e2) / 200)
          * (s * (1 + g) + c * (-(-s * e1 + c * e2) / 10000 + sg))) ^ 2)) * h1

/-- Bridge from `calculateControl` (with the claim's parameters l = 50,
k = 0.1, dt = 0.05) to the body-frame error transform: the squared
control-point distance after one step equals the closed form of
`stageA_core`, where `p`, `q` are the body-frame error components,
`dl = -q/10000` is the heading increment `W·dt`, `g` and `sg` are the trig
remainders `cos dl - 1` and `sin dl - dl`, and `a = 50 - p/200`. -/
theorem errSq_step [LinearOrderedField K] (T : TrigOps K)
    (H1 : ∀ a : K, T.cos a ^ 2 + T.sin a ^ 2 = 1)
    (H2c : ∀ a b : K, T.cos (a + b) = T.cos a * T.cos b - T.sin a * T.sin b)
    (H2s : ∀ a b : K, T.sin (a + b) = T.sin a * T.cos b + T.cos a * T.sin b)
    (x y th : K) (traj : List (K × K)) (mx ch : Nat)
    (p q dl g sg a : K)
    (hp : p = T.cos th * (x + 50 * T.cos th - 100) +
      T.sin th * (y + 50 * T.sin th - 100))
    (hq : q = -T.sin th * (x + 50 * T.cos th - 100) +
      T.cos th * (y + 50 * T.sin th - 100))
    (hdl : dl = -q / 10000)
    (hg : g = T.cos dl - 1)
    (hsg : sg = T.sin dl - dl)
    (ha : a = 50 - p / 200) :
    errSq T (Robot.calculateControl T
        ⟨x, y, th, 50, 1 / 10, 1 / 20, traj, mx, ch⟩ 100 100).1 100 100 =
      (199 / 200 * p + a * g) ^ 2 +
      (199 / 200 * q + p * q / 2000000 + a * sg) ^ 2 := by
  have hdet : T.cos th * (50 * T.cos th) - -50 * T.sin th * T.sin th =
      (50 : K) := by
    linear_combination (50 : K) * H1 th
  simp only [Robot.calculateControl, errSq, Robot.getExtensionPoint]
  rw [hdet]
  have harg : (-T.sin th / 50 * (-(1 / 10) * (x + 50 * T.cos th - 100)) +
      T.cos th / 50 * (-(1 / 10) * (y + 50 * T.sin th - 100))) * (1 / 20) =
      dl := by
    rw [hdl, hq]
    ring
  rw [harg, H2c th dl, H2s th dl]
  have hcd : T.cos dl = 1 + g := by rw [hg]; ring
  have hsd : T.sin dl = dl + sg := by rw [hsg]; ring
  rw [hcd, hsd, hdl, ha, hp, hq]
  have core := stageA_core (T.cos th) (T.sin th) (x + 50 * T.cos th - 100)
    (y + 50 * T.sin th - 100) g sg (H1 th)
  linear_combination core

/-- The quantitative contraction: whenever the squared error is within the
invariant region (≤ 36700) and the trig remainders satisfy the quadratic
and cubic smallness bounds, one step multiplies the squared error by at
most 991/1000 and at least 98/100. -/
theorem stageB [LinearOrderedField K] (p q g sg a : K)
    (hE : p ^ 2 + q ^ 2 ≤ 36700)
    (hg : |g| ≤ q ^ 2 / 200000000)
    (hsg : |sg| ≤ 48 * q ^ 2 / 1000000000000)
    (ha : a = 50 - p / 200) :
    (199 / 200 * p + a * g) ^ 2 +
      (199 / 200 * q + p * q / 2000000 + a * sg) ^ 2 ≤
      991 / 1000 * (p ^ 2 + q ^ 2) ∧
    98 / 100 * (p ^ 2 + q ^ 2) ≤
      (199 / 200 * p + a * g) ^ 2 +
      (199 / 200 * q + p * q / 2000000 + a * sg) ^ 2 := by
  obtain ⟨hg1, hg2⟩ := abs_le.mp hg
  obtain ⟨hs1, hs2⟩ := abs_le.mp hsg
  have hq0 : (0 : K) ≤ q ^ 2 := sq_nonneg q
  have hp0 : (0 : K) ≤ p ^ 2 := sq_nonneg p
  have hq2 : q ^ 2 ≤ 36700 := by nlinarith
  have hp2 : p ^ 2 ≤ 36700 := by nlinarith
  have hpu : p ≤ 192 := by nlinarith
  have hpl : -192 ≤ p := by nlinarith
  have hqu : q ≤ 192 := by nlinarith
  have hql : -192 ≤ q := by nlinarith
  have ha1 : 49 ≤ a := by rw [ha]; linarith
  have ha2 : a ≤ 51 := by rw [ha]; linarith
  have hU2 : a * g ≤ 51 * (q ^ 2 / 200000000) := by nlinarith
  have hU1 : -(51 * (q ^ 2 / 200000000)) ≤ a * g := by nlinarith
  have hS2 : a * sg ≤ 2448 * q ^ 2 / 1000000000000 := by nlinarith
  have hS1 : -(2448 * q ^ 2 / 1000000000000) ≤ a * sg := by nlinarith
  have hq192a : (0 : K) ≤ 192 - q := by linarith
  have hq192b : (0 : K) ≤ 192 + q := by linarith
  have hp192a : (0 : K) ≤ 192 - p := by linarith
  have hp192b : (0 : K) ≤ 192 + p := by linarith
  have hPU2 : p * (a * g) ≤ 9792 * (q ^ 2 / 200000000) := by
    nlinarith [mul_nonneg hp192a (by linarith :
        (0 : K) ≤ 51 * (q ^ 2 / 200000000) + a * g),
      mul_nonneg hp192b (by linarith :
        (0 : K) ≤ 51 * (q ^ 2 / 200000000) - a * g)]
  have hPU1 : -(9792 * (q ^ 2 / 200000000)) ≤ p * (a * g) := by
    nlinarith [mul_nonneg hp192a (by linarith :
        (0 : K) ≤ 51 * (q ^ 2 / 200000000) - a * g),
      mul_nonneg hp192b (by linarith :
        (0 : K) ≤ 51 * (q ^ 2 / 200000000) + a * g)]
  have hQS2 : q * (a * sg) ≤ 470016 * q ^ 2 / 1000000000000 := by
    nlinarith [mul_nonneg hq192a (by linarith :
        (0 : K) ≤ 2448 * q ^ 2 / 1000000000000 + a * sg),
      mul_nonneg hq192b (by linarith :
        (0 : K) ≤ 2448 * q ^ 2 / 1000000000000 - a * sg)]
  have hQS1 : -(470016 * q ^ 2 / 1000000000000) ≤ q * (a * sg) := by
    nlinarith [mul_nonneg hq192a (by linarith :
        (0 : K) ≤ 2448 * q ^ 2 / 1000000000000 - a * sg),
      mul_nonneg hq192b (by linarith :
        (0 : K) ≤ 2448 * q ^ 2 / 1000000000000 + a * sg)]
  have hPQ2 : p * q ^ 2 ≤ 192 * q ^ 2 := by nlinarith
  have hPQ1 : -(192 * q ^ 2) ≤ p * q ^ 2 := by nlinarith
  have hq4 : q ^ 2 * q ^ 2 ≤ 36700 * q ^ 2 := by
    nlinarith [mul_nonneg (sub_nonneg.mpr hq2) hq0]
  have hUsq : (a * g) ^ 2 ≤ 954567 / 400000000000000 * q ^ 2 := by
    have h1 : (a * g) ^ 2 ≤ (51 * (q ^ 2 / 200000000)) ^ 2 := sq_le_sq' hU1 hU2
    nlinarith [hq4]
  have hSsq : (a * sg) ^ 2 ≤
      219963801600 / 1000000000000000000000000 * q ^ 2 := by
    have h1 : (a * sg) ^ 2 ≤ (2448 * q ^ 2 / 1000000000000) ^ 2 :=
      sq_le_sq' hS1 hS2
    nlinarith [hq4]
  have hPQsq : (p * q) ^ 2 ≤ 36700 * q ^ 2 := by
    nlinarith [mul_nonneg (sub_nonneg.mpr hp2) hq0]
  have hmix : 2 * ((p * q / 2000000) * (a * sg)) ≤
      (p * q / 2000000) ^ 2 + (a * sg) ^ 2 := by
    nlinarith [sq_nonneg (p * q / 2000000 - a * sg)]
  have hmix1 : -((p * q / 2000000) ^ 2 + (a * sg) ^ 2) ≤
      2 * ((p * q / 2000000) * (a * sg)) := by
    nlinarith [sq_nonneg (p * q / 2000000 + a * sg)]
  have expand : (199 / 200 * p + a * g) ^ 2 +
      (199 / 200 * q + p * q / 2000000 + a * sg) ^ 2 =
      39601 / 40000 * (p ^ 2 + q ^ 2) + 199 / 100 * (p * (a * g)) +
        (a * g) ^ 2 + (p * q) ^ 2 / 4000000000000 + (a * sg) ^ 2 +
        199 / 200000000 * (p * q ^ 2) + 199 / 100 * (q * (a * sg)) +
        2 * ((p * q / 2000000) * (a * sg)) := by
    ring
  rw [expand]
  constructor
  · linarith [hPU2, hQS2, hPQ2, hUsq, hSsq, hPQsq, hmix, hq0, hp0]
  · linarith [hPU1, hQS1, hPQ1, hUsq, hSsq, hPQsq, hmix1, hq0, hp0,
      sq_nonneg (a * g), sq_nonneg (a * sg), sq_nonneg (p * q)]

/-- One `calculateControl` step with l = 50, k = 0.1, dt = 0.05 and target
(100, 100) contracts the squared control-point distance by a factor in
[98/100, 991/1000], for any trig assignment satisfying the Pythagorean
identity, the angle-addition formulas and the standard quadratic/cubic
remainder bounds, whenever the squared distance is at most 36700. -/
theorem errSq_contraction [LinearOrderedField K] (T : TrigOps K)
    (H1 : ∀ a : K, T.cos a ^ 2 + T.sin a ^ 2 = 1)
    (H2c : ∀ a b : K, T.cos (a + b) = T.cos a * T.cos b - T.sin a * T.sin b)
    (H2s : ∀ a b : K, T.sin (a + b) = T.sin a * T.cos b + T.cos a * T.sin b)
    (H3c : ∀ b : K, |T.cos b - 1| ≤ b ^ 2 / 2)
    (H3s : ∀ b : K, |b| ≤ 1 → |T.sin b - b| ≤ |b| ^ 3 / 4)
    (r : Robot K) (hl : r.l = 50) (hk : r.k = 1 / 10) (hdt : r.dt = 1 / 20)
    (hcap : errSq T r 100 100 ≤ 36700) :
    errSq T (Robot.calculateControl T r 100 100).1 100 100 ≤
      991 / 1000 * errSq T r 100 100 ∧
    98 / 100 * errSq T r 100 100 ≤
      errSq T (Robot.calculateControl T r 100 100).1 100 100 := by
  obtain ⟨x, y, th, l, k, dt, traj, mx, ch⟩ := r
  simp only at hl hk hdt hcap
  subst hl hk hdt
  set p := T.cos th * (x + 50 * T.cos th - 100) +
    T.sin th * (y + 50 * T.sin th - 100) with hp
  set q := -T.sin th * (x + 50 * T.cos th - 100) +
    T.cos th * (y + 50 * T.sin th - 100) with hq
  set dl := -q / 10000 with hdl
  set g := T.cos dl - 1 with hg
  set sg := T.sin dl - dl with hsg
  set a := 50 - p / 200 with ha
  have hpq : p ^ 2 + q ^ 2 =
      errSq T ⟨x, y, th, 50, 1 / 10, 1 / 20, traj, mx, ch⟩ 100 100 := by
    simp only [errSq, Robot.getExtensionPoint]
    rw [hp, hq]
    linear_combination ((x + 50 * T.cos th - 100) ^ 2 +
      (y + 50 * T.sin th - 100) ^ 2) * H1 th
  have hE : p ^ 2 + q ^ 2 ≤ 36700 := by rw [hpq]; exact hcap
  have hq2 : q ^ 2 ≤ 36700 := by nlinarith [sq_nonneg p]
  have hqabs : |q| ≤ 192 := abs_le.mpr ⟨by nlinarith, by nlinarith⟩
  have habs10k : |(10000 : K)| = 10000 :=
    abs_of_pos (by norm_num : (0 : K) < 10000)
  have hdlabs : |dl| ≤ 1 := by
    rw [hdl, abs_div, abs_neg, habs10k,
      div_le_one (by norm_num : (0 : K) < 10000)]
    linarith
  have hgbound : |g| ≤ q ^ 2 / 200000000 := by
    calc |g| ≤ dl ^ 2 / 2 := by rw [hg]; exact H3c dl
      _ = q ^ 2 / 200000000 := by rw [hdl]; ring
  have hsgbound : |sg| ≤ 48 * q ^ 2 / 1000000000000 := by
    have h1 : |sg| ≤ |dl| ^ 3 / 4 := by rw [hsg]; exact H3s dl hdlabs
    have h2 : |dl| ^ 3 = dl ^ 2 * |dl| := by
      rw [pow_succ, sq_abs]
    have h3 : dl ^ 2 = q ^ 2 / 100000000 := by rw [hdl]; ring
    have h4 : |dl| ≤ 192 / 10000 := by
      rw [hdl, abs_div, abs_neg, habs10k,
        div_le_div_iff_of_pos_right (by norm_num : (0 : K) < 10000)]
      exact hqabs
    calc |sg| ≤ |dl| ^ 3 / 4 := h1
      _ = dl ^ 2 * |dl| / 4 := by rw [h2]
      _ ≤ q ^ 2 / 100000000 * (192 / 10000) / 4 := by
          rw [h3]
          have := abs_nonneg dl
          have hqq : (0 : K) ≤ q ^ 2 / 100000000 := by positivity
          nlinarith
      _ = 48 * q ^ 2 / 1000000000000 := by ring
  have hstep := errSq_step T H1 H2c H2s x y th traj mx ch p q dl g sg a
    hp hq hdl hg hsg ha
  have hbounds := stageB p q g sg a hE hgbound hsgbound ha
  constructor
  · rw [hstep, ← hpq]
    exact hbounds.1
  · rw [hstep, ← hpq]
    exact hbounds.2

/-- Unfolding the iterate from the right: n+1 steps are n steps followed by
one step. -/
theorem stepN_succ [Add K] [Sub K] [Neg K] [Mul K] [Div K] (T : TrigOps K)
    (xs ys : K) (n : Nat) (r : Robot K) :
    stepN T xs ys (n + 1) r =
      (Robot.calculateControl T (stepN T xs ys n r) xs ys).1 := by
  induction n generalizing r with
  | zero => rfl
  | succ n ih =>
      show stepN T xs ys (n + 1) (Robot.calculateControl T r xs ys).1 = _
      rw [ih]
      rfl

/-- The iterate leaves the parameters l, k, dt unchanged. -/
theorem stepN_params [Add K] [Sub K] [Neg K] [Mul K] [Div K] (T : TrigOps K)
    (xs ys : K) (n : Nat) (r : Robot K) :
    (stepN T xs ys n r).l = r.l ∧ (stepN T xs ys n r).k = r.k ∧
      (stepN T xs ys n r).dt = r.dt := by
  induction n generalizing r with
  | zero => exact ⟨rfl, rfl, rfl⟩
  | succ n ih => exact ih (Robot.calculateControl T r xs ys).1

/-- C5: starting from pose (0, 0, 0°) with l = 50, k = 0.1, dt = 0.05 and
the fixed target (100, 100), the squared distance from the control point
to the target strictly decreases at every step and asymptotically
approaches 0 (for every ε > 0 it is eventually below ε) — equivalently for
the distance itself, since squaring is strictly monotone on nonnegatives.
Stated for any trig assignment satisfying the Pythagorean identity, the
angle-addition formulas and the standard quadratic/cubic remainder bounds;
the real cos/sin satisfy all of them (see the witness). -/
theorem convergence [LinearOrderedField K] [Archimedean K] (T : TrigOps K)
    (H1 : ∀ a : K, T.cos a ^ 2 + T.sin a ^ 2 = 1)
    (H2c : ∀ a b : K, T.cos (a + b) = T.cos a * T.cos b - T.sin a * T.sin b)
    (H2s : ∀ a b : K, T.sin (a + b) = T.sin a * T.cos b + T.cos a * T.sin b)
    (H3c : ∀ b : K, |T.cos b - 1| ≤ b ^ 2 / 2)
    (H3s : ∀ b : K, |b| ≤ 1 → |T.sin b - b| ≤ |b| ^ 3 / 4)
    (r0 : Robot K) (h0x : r0.x = 0) (h0y : r0.y = 0) (h0th : r0.theta = 0)
    (h0l : r0.l = 50) (h0k : r0.k = 1 / 10) (h0dt : r0.dt = 1 / 20) :
    (∀ n : Nat,
      errSq T (stepN T 100 100 (n + 1) r0) 100 100 <
        errSq T (stepN T 100 100 n r0) 100 100) ∧
    (∀ ε : K, 0 < ε → ∃ N : Nat, ∀ n : Nat, N ≤ n →
      errSq T (stepN T 100 100 n r0) 100 100 < ε) := by
  have hE0u : errSq T r0 100 100 ≤ 36650 := by
    simp only [errSq, Robot.getExtensionPoint, h0x, h0y, h0th, h0l, zero_add]
    nlinarith [H1 0, sq_nonneg (T.cos 0 - T.sin 0),
      sq_nonneg (T.cos 0 + T.sin 0 + 1415 / 1000)]
  have hE0l : (8350 : K) ≤ errSq T r0 100 100 := by
    simp only [errSq, Robot.getExtensionPoint, h0x, h0y, h0th, h0l, zero_add]
    nlinarith [H1 0, sq_nonneg (T.cos 0 - T.sin 0),
      sq_nonneg (T.cos 0 + T.sin 0 - 1415 / 1000)]
  have hinv : ∀ n : Nat,
      0 < errSq T (stepN T 100 100 n r0) 100 100 ∧
      errSq T (stepN T 100 100 n r0) 100 100 ≤ 36650 := by
    intro n
    induction n with
    | zero =>
        show 0 < errSq T r0 100 100 ∧ errSq T r0 100 100 ≤ 36650
        exact ⟨by linarith, hE0u⟩
    | succ n ih =>
        obtain ⟨hpos, hcap⟩ := ih
        obtain ⟨hl, hk, hdt⟩ := stepN_params T 100 100 n r0
        have hc := errSq_contraction T H1 H2c H2s H3c H3s
          (stepN T 100 100 n r0) (by rw [hl, h0l]) (by rw [hk, h0k])
          (by rw [hdt, h0dt]) (by linarith)
        rw [stepN_succ]
        exact ⟨by linarith, by linarith⟩
  have hdec : ∀ n : Nat,
      errSq T (stepN T 100 100 (n + 1) r0) 100 100 ≤
        991 / 1000 * errSq T (stepN T 100 100 n r0) 100 100 := by
    intro n
    obtain ⟨hpos, hcap⟩ := hinv n
    obtain ⟨hl, hk, hdt⟩ := stepN_params T 100 100 n r0
    have hc := errSq_contraction T H1 H2c H2s H3c H3s
      (stepN T 100 100 n r0) (by rw [hl, h0l]) (by rw [hk, h0k])
      (by rw [hdt, h0dt]) (by linarith)
    rw [stepN_succ]
    exact hc.1
  constructor
  · intro n
    obtain ⟨hpos, _⟩ := hinv n
    have := hdec n
    linarith
  · intro ε hε
    have hgeo : ∀ n : Nat,
        errSq T (stepN T 100 100 n r0) 100 100 ≤
          (991 / 1000 : K) ^ n * errSq T r0 100 100 := by
      intro n
      induction n with
      | zero => simp [stepN]
      | succ n ih =>
          calc errSq T (stepN T 100 100 (n + 1) r0) 100 100 ≤
              991 / 1000 * errSq T (stepN T 100 100 n r0) 100 100 := hdec n
            _ ≤ 991 / 1000 * ((991 / 1000 : K) ^ n * errSq T r0 100 100) := by
                nlinarith [ih]
            _ = (991 / 1000 : K) ^ (n + 1) * errSq T r0 100 100 := by ring
    obtain ⟨N, hN⟩ := exists_pow_lt_of_lt_one
      (show (0 : K) < ε / 36650 by positivity)
      (show (991 / 1000 : K) < 1 by norm_num)
    refine ⟨N, fun n hn => ?_⟩
    have hpow : (991 / 1000 : K) ^ n ≤ (991 / 1000 : K) ^ N :=
      pow_le_pow_of_le_one (by norm_num) (by norm_num) hn
    have h1 := hgeo n
    have h2 : (991 / 1000 : K) ^ n * errSq T r0 100 100 ≤
        (991 / 1000 : K) ^ N * 36650 := by
      have hc0 : (0 : K) ≤ (991 / 1000 : K) ^ n := by positivity
      have hc1 : (0 : K) ≤ (991 / 1000 : K) ^ N := by positivity
      nlinarith [hE0u, hE0l]
    have h3 : (991 / 1000 : K) ^ N * 36650 < ε / 36650 * 36650 := by
      have h36 : (0 : K) < 36650 := by norm_num
      nlinarith [hN]
    have h4 : ε / 36650 * (36650 : K) = ε := by field_simp
    linarith

/-- The quadratic remainder bound for the real cosine. -/
theorem real_cos_one_bound (b : ℝ) : |Real.cos b - 1| ≤ b ^ 2 / 2 := by
  rw [abs_of_nonpos (by linarith [Real.cos_le_one b] : Real.cos b - 1 ≤ 0)]
  have := @Real.one_sub_sq_div_two_le_cos b
  linarith

/-- The cubic remainder bound for the real sine on [-1, 1]. -/
theorem real_sin_sub_bound (b : ℝ) (hb : |b| ≤ 1) :
    |Real.sin b - b| ≤ |b| ^ 3 / 4 := by
  rcases lt_trichotomy b 0 with hneg | hzero | hpos
  · have h1 : 0 < -b := by linarith
    have h2 : -b ≤ 1 := by
      have h := (abs_le.mp hb).1
      linarith
    have hs1 : Real.sin (-b) < -b := Real.sin_lt h1
    have hs2 : -b - (-b) ^ 3 / 4 < Real.sin (-b) := Real.sin_gt_sub_cube h1 h2
    rw [Real.sin_neg] at hs1 hs2
    rw [abs_of_neg hneg, abs_le]
    constructor <;> nlinarith
  · subst hzero
    simp
  · have h2 : b ≤ 1 := le_trans (le_abs_self b) hb
    have hs1 : Real.sin b < b := Real.sin_lt hpos
    have hs2 : b - b ^ 3 / 4 < Real.sin b := Real.sin_gt_sub_cube hpos h2
    rw [abs_of_pos hpos, abs_le]
    constructor <;> nlinarith

/-- C5 witness: the convergence theorem instantiated with the genuine real
trigonometric functions and the concrete initial robot of the claim; the
analytic hypotheses are discharged by the Mathlib bounds on cos and sin. -/
theorem convergence_witness :
    (∀ n : Nat,
      errSq ⟨Real.cos, Real.sin, Real.pi⟩
        (stepN ⟨Real.cos, Real.sin, Real.pi⟩ 100 100 (n + 1)
          ⟨0, 0, 0, 50, 1 / 10, 1 / 20, [], 5000, 500⟩) 100 100 <
      errSq ⟨Real.cos, Real.sin, Real.pi⟩
        (stepN ⟨Real.cos, Real.sin, Real.pi⟩ 100 100 n
          ⟨0, 0, 0, 50, 1 / 10, 1 / 20, [], 5000, 500⟩) 100 100) ∧
    (∀ ε : ℝ, 0 < ε → ∃ N : Nat, ∀ n : Nat, N ≤ n →
      errSq ⟨Real.cos, Real.sin, Real.pi⟩
        (stepN ⟨Real.cos, Real.sin, Real.pi⟩ 100 100 n
          ⟨0, 0, 0, 50, 1 / 10, 1 / 20, [], 5000, 500⟩) 100 100 < ε) :=
  convergence ⟨Real.cos, Real.sin, Real.pi⟩
    (fun a => Real.cos_sq_add_sin_sq a)
    (fun a b => Real.cos_add a b)
    (fun a b => Real.sin_add a b)
    real_cos_one_bound
    real_sin_sub_bound
    ⟨0, 0, 0, 50, 1 / 10, 1 / 20, [], 5000, 500⟩ rfl rfl rfl rfl rfl rfl


end RobotSim
